import Mathlib

/-!
Verification development for the Food_Order_App kitchen-orchestration code
(`src/App.tsx` and the constants module). The definitions below are a shallow
embedding of the TypeScript source: pure helpers become Lean functions, the
React state updaters become explicit state-passing functions, and the two
completion-service calls (combination resolver and verification judge) become
function parameters whose failure modes are made explicit (`Option` for a
null/skipped result, `Except` where a thrown exception is distinguished from
a null result).
-/

namespace FoodOrderApp

/-- `Ingredient` from the constants module: a named, emoji-tagged item. -/
structure Ingredient where
  name : String
  emoji : String
deriving DecidableEq, Repr

/-- `KitchenAction` from the constants module. -/
structure KitchenAction where
  name : String
  displayName : String
  emoji : String
deriving DecidableEq, Repr

/-- Order status values of the `Order` interface. -/
inductive OrderStatus
  | not_started
  | in_progress
  | completed
  | failed
deriving DecidableEq, Repr

/-- `Order` from the constants module (difficulty kept as its string literal). -/
structure Order where
  id : String
  name : String
  emoji : String
  difficulty : String
  status : OrderStatus
  servedDish : Option String := none
deriving DecidableEq, Repr

/-- `TimelineEntry`. The TS field `result?: Ingredient | null` has three
states: absent (pure narration), `null` (pending attempt) and a resolved
`Ingredient`; we model it as `Option (Option Ingredient)` where `none` is
absent and `some none` is the pending marker. The `Date` timestamp becomes
a `Nat` tick supplied by the caller. -/
structure TimelineEntry where
  id : String
  timestamp : Nat
  text : Option String := none
  action : Option String := none
  ingredients : Option (List String) := none
  result : Option (Option Ingredient) := none
deriving DecidableEq, Repr

/-- `VerificationResult` decoded from the judge service; `confidence` is a
JS number compared against 0.7, modelled as a rational. -/
structure VerificationResult where
  «matches» : Bool
  confidence : ℚ
  explanation : String
deriving DecidableEq, Repr

/-! ## Normalizer (`normalizeIngredientName`, `findIngredientInInventory`,
`isDuplicateIngredient` in App.tsx) -/

/-- `normalizeIngredientName`: lower-case, then drop every character outside
`[a-z0-9]` (the regex replace with the empty string). Lower-casing is written
character by character; `toLower_eq_map` below shows this agrees with
`String.toLower`. -/
def normalizeIngredientName (name : String) : String :=
  String.mk ((name.data.map Char.toLower).filter fun c => c.isLower || c.isDigit)

/-- `findIngredientInInventory`: first inventory entry whose normalized name
equals the normalized search name, `none` when unmatched (the `|| null`). -/
def findIngredientInInventory (name : String) (inventory : List Ingredient) :
    Option Ingredient :=
  inventory.find? fun ing =>
    normalizeIngredientName ing.name == normalizeIngredientName name

/-- `isDuplicateIngredient`. -/
def isDuplicateIngredient (name : String) (inventory : List Ingredient) : Bool :=
  (findIngredientInInventory name inventory).isSome

/-- The `setInventory` updater used by both `executeAction` and
`handleApprovedFunctionCalls`: skip insertion on a duplicate, otherwise
prepend the new ingredient. -/
def insertIngredient (newIngredient : Ingredient) (prev : List Ingredient) :
    List Ingredient :=
  if isDuplicateIngredient newIngredient.name prev then prev
  else newIngredient :: prev

/-- Invariant maintained over Inventory: no two entries share a normalized
name. -/
def NoCollision (inventory : List Ingredient) : Prop :=
  inventory.Pairwise fun a b =>
    normalizeIngredientName a.name ≠ normalizeIngredientName b.name

/-! ## Action catalog (`sanitizeName`, `createAction`, `COOKING_ACTIONS`) -/

/-- One step of `sanitizeName`: the accumulator holds the output characters so
far plus a flag recording whether the previous input character was whitespace
(so a whitespace run emits a single underscore, matching the regex that first
collapses whitespace runs into one underscore and then strips every character
outside `[a-zA-Z0-9_]`). -/
def sanitizeStep (acc : List Char × Bool) (c : Char) : List Char × Bool :=
  if c.isWhitespace then
    if acc.2 then acc else (acc.1 ++ ['_'], true)
  else if c.isAlpha || c.isDigit || c == '_' then (acc.1 ++ [c], false)
  else (acc.1, false)

/-- `sanitizeName` from the constants module. -/
def sanitizeName (name : String) : String :=
  String.mk (name.data.foldl sanitizeStep ([], false)).1

/-- `createAction`. -/
def createAction (name : String) (emoji : String) : KitchenAction :=
  { name := sanitizeName name, displayName := name, emoji := emoji }

/-- `COOKING_ACTIONS` from the constants module, in source order. -/
def COOKING_ACTIONS : List KitchenAction := [
  createAction "temper tadka" "🔥", createAction "stone grind" "🪨",
  createAction "ferment" "🫧", createAction "steam idli" "🥟",
  createAction "deep fry vada" "🍩", createAction "shallow fry" "🍳",
  createAction "dry roast" "🥘", createAction "soak" "💧",
  createAction "pound" "🔨", createAction "banana leaf wrap" "🍃",
  createAction "simmer sambar" "🍲", createAction "boil" "🫧",
  createAction "chop" "🔪", createAction "dice" "🔪",
  createAction "mince" "🔪", createAction "grate coconut" "🥥",
  createAction "peel" "🥔", createAction "wash" "💧",
  createAction "extract tamarind" "🍶", createAction "squeeze lemon" "🍋",
  createAction "mix batter" "🥣", createAction "whisk" "🥄",
  createAction "stir" "🥄", createAction "combine" "🥣",
  createAction "toss" "🥗", createAction "caramelize" "🍯",
  createAction "reduce" "🍲", createAction "infuse" "🍵",
  createAction "smoke" "💨", createAction "pickle" "🥒",
  createAction "rest" "⏰", createAction "serve on leaf" "🍽️",
  createAction "pass" "🏳️"]

/-- `STARTING_INGREDIENTS` from the constants module. -/
def STARTING_INGREDIENTS : List Ingredient := [
  ⟨"ponni rice", "🌾"⟩, ⟨"urad dal", "⚪"⟩, ⟨"toor dal", "🟡"⟩,
  ⟨"chana dal", "🟠"⟩, ⟨"semolina", "🌾"⟩,
  ⟨"drumstick murungakkai", "🥢"⟩, ⟨"pearl onions", "🧅"⟩,
  ⟨"okra bendakaya", "🥒"⟩, ⟨"brinjal", "🍆"⟩,
  ⟨"raw banana", "🍌"⟩, ⟨"curry leaves", "🍃"⟩,
  ⟨"coriander leaves", "🌿"⟩, ⟨"green chilies", "🌶️"⟩,
  ⟨"ginger", "🫚"⟩, ⟨"garlic", "🧄"⟩,
  ⟨"tomato", "🍅"⟩, ⟨"potato", "🥔"⟩,
  ⟨"mustard seeds", "⚫"⟩, ⟨"cumin seeds", "🤎"⟩,
  ⟨"asafetida hing", "🧂"⟩, ⟨"tamarind", "🤎"⟩,
  ⟨"sambar powder", "🌶️"⟩, ⟨"turmeric", "🟡"⟩,
  ⟨"salt", "🧂"⟩, ⟨"black pepper", "⚫"⟩,
  ⟨"dry red chilies", "🌶️"⟩, ⟨"fenugreek seeds", "🟤"⟩,
  ⟨"gingelly oil", "🍶"⟩, ⟨"coconut oil", "🥥"⟩,
  ⟨"ghee", "🍯"⟩, ⟨"curd yogurt", "🥛"⟩,
  ⟨"milk", "🥛"⟩,
  ⟨"king fish", "🐟"⟩, ⟨"chicken", "🍗"⟩,
  ⟨"shrimp", "🦐"⟩, ⟨"mutton", "🍖"⟩,
  ⟨"eggs", "🥚"⟩,
  ⟨"fresh coconut", "🥥"⟩, ⟨"jaggery", "🤎"⟩,
  ⟨"coffee decoction", "☕"⟩, ⟨"sugar", "🍯"⟩,
  ⟨"water", "💧"⟩]

/-- `EXAMPLE_ORDERS` from the constants module. -/
def EXAMPLE_ORDERS : List Order := [
  ⟨"order-1", "Filter Coffee", "☕", "easy", .not_started, none⟩,
  ⟨"order-2", "Ghee Roast Dosa", "🥞", "intermediate", .not_started, none⟩,
  ⟨"order-3", "Madras Fish Curry", "🥘", "difficult", .not_started, none⟩,
  ⟨"order-4", "Masala Dosa", "🥞", "difficult", .not_started, none⟩,
  ⟨"order-5", "Idly", "🥞", "difficult", .not_started, none⟩,
  ⟨"order-6", "Poori", "🥞", "difficult", .not_started, none⟩,
  ⟨"order-7", "Masala Dosa, Idly & Poori Combo", "🥞", "difficult", .not_started, none⟩]

/-! ## Order Ledger (`handlePickUp`, `handleCookWithGemini`,
`handleCookBatchWithGemini`, `handlePass`, `handlePerformClearSummary`) -/

/-- `handlePickUp`: the `setOrders` updater mapping the order with the given
id to `in_progress`; the source carries no status guard. -/
def handlePickUp (orderId : String) (orders : List Order) : List Order :=
  orders.map fun order =>
    if order.id == orderId then { order with status := OrderStatus.in_progress }
    else order

/-- The ledger effect of `handleCookWithGemini`: pick up only when the order
is `not_started` (the guard lives in this caller, not in `handlePickUp`). -/
def handleCookWithGemini (order : Order) (orders : List Order) : List Order :=
  if order.status == OrderStatus.not_started then handlePickUp order.id orders
  else orders

/-- The ledger effect of `handleCookBatchWithGemini`: every order whose id
occurs in the selected set becomes `in_progress` in one update. -/
def handleCookBatchWithGemini (selectedOrders : List Order) (orders : List Order) :
    List Order :=
  orders.map fun order =>
    if selectedOrders.any fun so => so.id == order.id then
      { order with status := OrderStatus.in_progress }
    else order

/-- `handlePass`: every `in_progress` order becomes `failed` with the
sentinel served dish; all other orders are untouched. -/
def handlePass (orders : List Order) : List Order :=
  orders.map fun order =>
    if order.status == OrderStatus.in_progress then
      { order with status := OrderStatus.failed, servedDish := some "Vanished" }
    else order

/-- `handlePerformClearSummary`: drop terminal orders. -/
def handlePerformClearSummary (orders : List Order) : List Order :=
  orders.filter fun order =>
    order.status != OrderStatus.completed && order.status != OrderStatus.failed

/-! ## Verification Matcher (`verifyServedDishRef.current`)

The per-order judge call is a parameter `svc : Order → Option VerificationResult`;
`none` models a thrown service error or malformed JSON for that order (caught
and skipped in the source), `some r` a decoded result. -/

/-- The acceptance test of the loop body: a decoded result with
`matches && confidence > 0.7`; a thrown call (`none`) never accepts. -/
def acceptsVerification (svc : Order → Option VerificationResult) (order : Order) :
    Bool :=
  match svc order with
  | some r => r.«matches» && decide ((7 : ℚ) / 10 < r.confidence)
  | none => false

/-- Emoji chosen for a completed order: the matched inventory ingredient, or
the default check mark. -/
def servedEmojiFor (servedDishName : String) (inventory : List Ingredient) : String :=
  match findIngredientInInventory servedDishName inventory with
  | some ing => ing.emoji
  | none => "✅"

/-- The `setOrders` updater applied when a served dish matches an order. -/
def completeOrder (matchedId : String) (servedEmoji : String)
    (servedDishName : String) (o : Order) : Order :=
  if o.id == matchedId then
    { o with status := OrderStatus.completed, emoji := servedEmoji,
             servedDish := some servedDishName }
  else o

/-- Outcome of one `verifyServedDish` call: the returned boolean, the ledger
after the call, and the timeline entries appended by the call. -/
structure VerifyOutcome where
  success : Bool
  orders : List Order
  appended : List TimelineEntry
deriving DecidableEq, Repr

/-- `verifyServedDishRef.current` from the VerificationAgent: trivial success
when nothing is in progress; otherwise scan the in-progress orders in ledger
order for the first accepted one, complete exactly it and stop; if none is
accepted the ledger is unchanged and a failure narration is appended. The
narration entries carry the excess `action: ''`, `ingredients: []`,
`result: null` fields exactly as the source writes them. -/
def verifyServedDish (svc : Order → Option VerificationResult)
    (servedDishName : String) (orders : List Order) (inventory : List Ingredient)
    (now : Nat) : VerifyOutcome :=
  let inProgressOrders := orders.filter fun o => o.status == OrderStatus.in_progress
  if inProgressOrders.isEmpty then
    { success := true, orders := orders,
      appended := [{ id := "verify-noorder-" ++ toString now, timestamp := now,
                     text := some ("✅ Served \"" ++ servedDishName ++ "\""),
                     action := some "", ingredients := some [], result := some none }] }
  else
    match inProgressOrders.find? (acceptsVerification svc) with
    | some order =>
      { success := true,
        orders := orders.map
          (completeOrder order.id (servedEmojiFor servedDishName inventory) servedDishName),
        appended := [{ id := "verify-" ++ toString now, timestamp := now,
                       text := some ("✅ Delicious! \"" ++ servedDishName ++
                         "\" is a perfect match for \"" ++ order.name ++ "\"."),
                       action := some "", ingredients := some [], result := some none }] }
    | none =>
      { success := false, orders := orders,
        appended := [{ id := "verify-fail-" ++ toString now, timestamp := now,
                       text := some "❌ That\x27s not part of the current feast!",
                       action := some "", ingredients := some [], result := some none }] }

/-! ## Cooking Orchestrator (`handleApprovedFunctionCalls` in CookingAgent)

The combination resolver is a parameter
`resolve : KitchenAction → List String → Except String (Option Ingredient)`:
`Except.ok (some ing)` is a decoded combination, `Except.ok none` the `null`
the resolver returns on a service error or malformed JSON (its own `catch`),
and `Except.error e` a genuinely thrown exception inside the dispatcher's
`try` block, with `e` the stringified error. The judge session is
`svc : String → Order → Option VerificationResult`, keyed by the served dish
name as in the verification prompt. -/

/-- A tool call `{name, args}` with the two argument shapes flattened:
`fc.name` may be absent (the source falls back to the empty string) and the
`ingredients` and `dish` arguments are optional. -/
structure FunctionCall where
  name : Option String := none
  ingredients : Option (List String) := none
  dish : Option String := none
deriving DecidableEq, Repr

/-- The structured tool-response payload sent back to the agent session. -/
structure FunctionResponse where
  success : Bool
  result : Option String := none
  emoji : Option String := none
  message : Option String := none
  error : Option String := none
deriving DecidableEq, Repr

/-- The observable outcome of dispatching one approved tool call: the
response payload, the inventory and ledger afterwards, the timeline entries
appended by the call (in order, with their final `result` value), and the
combination-resolver invocations made (action name and validated
ingredient list). -/
structure DispatchResult where
  response : FunctionResponse
  inventory : List Ingredient
  orders : List Order
  appendedTimeline : List TimelineEntry
  resolverCalls : List (String × List String)
deriving DecidableEq, Repr

/-- The validation loop of the dispatcher: resolve each requested name
against the inventory, keep only matches, and deduplicate by normalized name
preserving first-seen order (the stored name is the inventory spelling). -/
def validateIngredients (requestedIngredients : List String)
    (inventory : List Ingredient) : List String :=
  requestedIngredients.foldl (fun validated requestedName =>
    match findIngredientInInventory requestedName inventory with
    | some found =>
      if validated.any (fun v =>
          normalizeIngredientName v == normalizeIngredientName found.name) then
        validated
      else validated ++ [found.name]
    | none => validated) []

/-- The pending (`result: null`) timeline entry appended before the resolver
call; `pendingText` is the buffered narration (an empty string is dropped,
mirroring `pendingText || undefined`). -/
def mkLoadingEntry (timelineId : String) (now : Nat) (pendingText : Option String)
    (actionName : String) (validatedIngredients : List String) : TimelineEntry :=
  { id := timelineId, timestamp := now,
    text := if pendingText == some "" then none else pendingText,
    action := some actionName, ingredients := some validatedIngredients,
    result := some none }

/-- The fallback ingredient substituted when the resolver returns `null`. -/
def fallbackIngredient (action : KitchenAction) : Ingredient :=
  { name := action.displayName ++ "ed items", emoji := action.emoji }

/-- The sentinel error result written into a timeline entry from the
dispatcher's `catch` branch (and from `executeAction` on a `null` resolver
result). -/
def errorSentinel : Ingredient := { name := "error", emoji := "❌" }

/-- `handleApprovedFunctionCalls`, dispatching the single approved tool call
(the source reads `functionCalls[0]`). -/
def handleApprovedFunctionCalls
    (resolve : KitchenAction → List String → Except String (Option Ingredient))
    (svc : String → Order → Option VerificationResult)
    (fc : FunctionCall) (pendingText : Option String)
    (inventory : List Ingredient) (orders : List Order) (now : Nat) :
    DispatchResult :=
  let actionName := fc.name.getD ""
  if actionName == "serve_on_leaf" then
    let dishName := match fc.dish with
      | some d => if d == "" then "dish" else d
      | none => "dish"
    let serveEntry : TimelineEntry :=
      { id := "serve-" ++ toString now, timestamp := now,
        text := some ("🍽️ Serving on Banana Leaf: " ++ dishName) }
    let outcome := verifyServedDish (svc dishName) dishName orders inventory now
    { response :=
        if outcome.success then
          { success := true,
            message := some (dishName ++ " served! Romba nalla iruku!") }
        else
          { success := false,
            error := some (dishName ++ " is not what was ordered. Try again!") },
      inventory := inventory, orders := outcome.orders,
      appendedTimeline := serveEntry :: outcome.appended,
      resolverCalls := [] }
  else if actionName == "pass" then
    { response := { success := true, message := some "Order abandoned." },
      inventory := inventory, orders := handlePass orders,
      appendedTimeline := [{ id := "pass-" ++ toString now, timestamp := now,
                             text := some "🏳️ Gave up on the order" }],
      resolverCalls := [] }
  else
    let requestedIngredients := fc.ingredients.getD []
    match COOKING_ACTIONS.find? (fun a => a.name == actionName) with
    | none =>
      { response := { success := false,
                      error := some ("Unknown action: " ++ actionName) },
        inventory := inventory, orders := orders,
        appendedTimeline := [], resolverCalls := [] }
    | some action =>
      let validatedIngredients := validateIngredients requestedIngredients inventory
      if validatedIngredients.isEmpty && !requestedIngredients.isEmpty then
        { response := { success := false,
                        error := some "Ingredients missing from pantry." },
          inventory := inventory, orders := orders,
          appendedTimeline := [], resolverCalls := [] }
      else
        let loadingEntry :=
          mkLoadingEntry ("cooking-" ++ toString now) now pendingText actionName
            validatedIngredients
        match resolve action validatedIngredients with
        | Except.ok resolved =>
          let newIngredient := resolved.getD (fallbackIngredient action)
          { response := { success := true, result := some newIngredient.name,
                          emoji := some newIngredient.emoji },
            inventory := insertIngredient newIngredient inventory,
            orders := orders,
            appendedTimeline := [{ loadingEntry with result := some (some newIngredient) }],
            resolverCalls := [(actionName, validatedIngredients)] }
        | Except.error e =>
          { response := { success := false, error := some e },
            inventory := inventory, orders := orders,
            appendedTimeline := [{ loadingEntry with result := some (some errorSentinel) }],
            resolverCalls := [(actionName, validatedIngredients)] }

/-! ## Manual action path (`executeAction` in CombinationAgent)

Here the resolver is `executeCombination`, which catches every service error
or malformed response and returns `null`, so it is an
`Option Ingredient`-valued parameter with no thrown case. -/

/-- Outcome of one manual `executeAction` call. -/
structure ExecuteActionResult where
  inventory : List Ingredient
  appendedTimeline : List TimelineEntry
  served : Option String
deriving DecidableEq, Repr

/-- `executeAction`: no-op on an empty selection; the serve pseudo-action
only narrates and hands off the first selected name; a regular action appends
a pending entry, resolves, and on a `null` result completes the entry with
the error sentinel and leaves the inventory untouched. -/
def executeAction (resolve : KitchenAction → List String → Option Ingredient)
    (action : KitchenAction) (selectedIngredients : List String)
    (inventory : List Ingredient) (now : Nat) : ExecuteActionResult :=
  if selectedIngredients.isEmpty then
    { inventory := inventory, appendedTimeline := [], served := none }
  else if action.name == "serve_on_leaf" then
    let dishName := selectedIngredients.headD ""
    { inventory := inventory,
      appendedTimeline := [{ id := "serve-" ++ toString now, timestamp := now,
                             action := some "", ingredients := some [],
                             result := some none,
                             text := some ("🍽️ Served on Banana Leaf: " ++ dishName) }],
      served := some dishName }
  else
    let loadingEntry : TimelineEntry :=
      { id := toString now, timestamp := now, action := some action.name,
        ingredients := some selectedIngredients, result := some none }
    match resolve action selectedIngredients with
    | some newIngredient =>
      { inventory := insertIngredient newIngredient inventory,
        appendedTimeline := [{ loadingEntry with result := some (some newIngredient) }],
        served := none }
    | none =>
      { inventory := inventory,
        appendedTimeline := [{ loadingEntry with result := some (some errorSentinel) }],
        served := none }

/-! ## Supporting lemmas -/

/-- The character-level lower-casing used in `normalizeIngredientName` is
exactly `String.toLower`. -/
theorem toLower_eq_map (s : String) : s.toLower = String.mk (s.data.map Char.toLower) := by
  simp [String.toLower, String.map_eq]

/-- A name matches no inventory entry exactly when the lookup returns
`none`. -/
theorem findIngredientInInventory_eq_none {name : String}
    {inventory : List Ingredient}
    (h : ∀ ing ∈ inventory,
      normalizeIngredientName ing.name ≠ normalizeIngredientName name) :
    findIngredientInInventory name inventory = none := by
  apply List.find?_eq_none.mpr
  intro ing hmem
  simpa using h ing hmem

/-- Conversely, a failed lookup means no normalized name agrees. -/
theorem no_match_of_findIngredientInInventory_eq_none {name : String}
    {inventory : List Ingredient}
    (h : findIngredientInInventory name inventory = none) :
    ∀ ing ∈ inventory,
      normalizeIngredientName ing.name ≠ normalizeIngredientName name := by
  intro ing hmem
  have := List.find?_eq_none.mp h ing hmem
  simpa using this

/-- `find?` selects the first element accepted by the predicate when every
earlier element is rejected. -/
theorem find?_first_accepted {α : Type} (p : α → Bool) (l₁ l₂ : List α) (o : α)
    (hskip : ∀ x ∈ l₁, p x = false) (hacc : p o = true) :
    (l₁ ++ o :: l₂).find? p = some o := by
  induction l₁ with
  | nil => simp [List.find?_cons_of_pos _ hacc]
  | cons a rest ih =>
    have ha : p a = false := hskip a (by simp)
    have hrest : ∀ x ∈ rest, p x = false := fun x hx => hskip x (by simp [hx])
    rw [List.cons_append, List.find?_cons_of_neg _ (by simp [ha])]
    exact ih hrest

/-! ## Claim theorems -/

/-- C8: the name normalizer is a pure, total Lean function that lower-cases
its input and strips every non-alphanumeric character; in particular
`normalize "Curry Leaves" = normalize "curry-leaves" = normalize
"CURRYLEAVES"` (all equal to the canonical key `"curryleaves"`), and an
inventory lookup of a name with no canonical-key match returns `none`
(not-found) rather than raising an error. -/
theorem normalizer_contract :
    normalizeIngredientName "Curry Leaves" = "curryleaves" ∧
    normalizeIngredientName "curry-leaves" = "curryleaves" ∧
    normalizeIngredientName "CURRYLEAVES" = "curryleaves" ∧
    ∀ (name : String) (inventory : List Ingredient),
      (∀ ing ∈ inventory,
        normalizeIngredientName ing.name ≠ normalizeIngredientName name) →
      findIngredientInInventory name inventory = none := by
  refine ⟨by decide, by decide, by decide, ?_⟩
  intro name inventory h
  exact findIngredientInInventory_eq_none h

/-- Witness for C8: the lookup clause applied at a concrete unmatched name
over the seed pantry entry for salt. -/
theorem normalizer_contract_witness :
    findIngredientInInventory "ghost pepper" [⟨"salt", "🧂"⟩] = none :=
  normalizer_contract.2.2.2 "ghost pepper" [⟨"salt", "🧂"⟩] (by decide)

/-- C6: inventory insertion is idempotent under normalized-name equality —
inserting an ingredient whose normalized name collides with an existing
entry returns the inventory unchanged (so same length with the first-seen
entry retained) — and insertion preserves the invariant that no two entries
have colliding normalized names. -/
theorem insertIngredient_idempotent_and_nocollision
    (ing : Ingredient) (inv : List Ingredient) :
    (isDuplicateIngredient ing.name inv = true → insertIngredient ing inv = inv) ∧
    (NoCollision inv → NoCollision (insertIngredient ing inv)) := by
  constructor
  · intro h
    simp [insertIngredient, h]
  · intro h
    by_cases hdup : isDuplicateIngredient ing.name inv = true
    · simpa [insertIngredient, hdup] using h
    · have hnone : findIngredientInInventory ing.name inv = none := by
        simp [isDuplicateIngredient, Option.isSome_iff_exists] at hdup
        cases hfind : findIngredientInInventory ing.name inv with
        | none => rfl
        | some x => exact absurd hfind (hdup x)
      have hall := no_match_of_findIngredientInInventory_eq_none hnone
      have : insertIngredient ing inv = ing :: inv := by
        simp [insertIngredient, isDuplicateIngredient, hnone]
      rw [this]
      exact List.Pairwise.cons (fun b hb => (hall b hb).symm) h

/-- Witness for C6: re-inserting curry leaves under an alternative spelling
leaves the single-entry inventory unchanged. -/
theorem insertIngredient_idempotent_witness :
    insertIngredient ⟨"Curry-Leaves", "🍃"⟩ [⟨"curry leaves", "🍃"⟩] =
      [⟨"curry leaves", "🍃"⟩] :=
  (insertIngredient_idempotent_and_nocollision ⟨"Curry-Leaves", "🍃"⟩
    [⟨"curry leaves", "🍃"⟩]).1 (by decide)

/-- C2 counterexample: `handlePickUp` carries no status guard, so a
`completed` order whose id is targeted is moved back to `in_progress`,
refuting the claim that pickup is a no-op on any status other than
`not_started`. -/
theorem handlePickUp_completed_counterexample :
    handlePickUp "order-1"
        [⟨"order-1", "Filter Coffee", "☕", "easy", OrderStatus.completed,
          some "Degree Coffee"⟩] =
      [⟨"order-1", "Filter Coffee", "☕", "easy", OrderStatus.in_progress,
        some "Degree Coffee"⟩] := by
  decide

/-- C2 amended: `handlePickUp` unconditionally sets the order with the
matching id to `in_progress` whatever its prior status, leaves every order
with a different id untouched, and is idempotent (so a `not_started` order
picked up twice transitions exactly once); the `not_started`-only guard
lives in the caller: `handleCookWithGemini` leaves the ledger unchanged
whenever the chosen order is not `not_started`. -/
theorem handlePickUp_amended (orderId : String) (orders : List Order) :
    handlePickUp orderId (handlePickUp orderId orders) = handlePickUp orderId orders ∧
    (∀ o ∈ orders, o.id = orderId →
      { o with status := OrderStatus.in_progress } ∈ handlePickUp orderId orders) ∧
    (∀ o ∈ orders, o.id ≠ orderId → o ∈ handlePickUp orderId orders) ∧
    (∀ order : Order, order.status ≠ OrderStatus.not_started →
      handleCookWithGemini order orders = orders) := by
  refine ⟨?_, ?_, ?_, ?_⟩
  · unfold handlePickUp
    rw [List.map_map]
    apply List.map_congr_left
    intro o _
    by_cases h : o.id = orderId <;> simp [Function.comp, h]
  · intro o ho hid
    have := List.mem_map_of_mem
      (fun order => if order.id == orderId then
        { order with status := OrderStatus.in_progress } else order) ho
    simpa [handlePickUp, hid] using this
  · intro o ho hid
    have := List.mem_map_of_mem
      (fun order => if order.id == orderId then
        { order with status := OrderStatus.in_progress } else order) ho
    simpa [handlePickUp, hid] using this
  · intro order h
    simp [handleCookWithGemini, h]

/-- Witness for C2 amended: picking up a pending order at a concrete input
places its `in_progress` copy in the ledger. -/
theorem handlePickUp_amended_witness :
    ({ id := "o1", name := "Idly", emoji := "🥞", difficulty := "easy",
       status := OrderStatus.in_progress, servedDish := none } : Order) ∈
      handlePickUp "o1"
        [⟨"o1", "Idly", "🥞", "easy", OrderStatus.not_started, none⟩] :=
  (handlePickUp_amended "o1"
      [⟨"o1", "Idly", "🥞", "easy", OrderStatus.not_started, none⟩]).2.1
    ⟨"o1", "Idly", "🥞", "easy", OrderStatus.not_started, none⟩ (by decide) rfl

/-- C7: dispatching the abandon (`pass`) tool call reports success with the
"Order abandoned." message, appends exactly the give-up narration entry,
makes no combination-resolver call, and updates the ledger with
`handlePass`, which fails every `in_progress` order with the sentinel
servedDish `"Vanished"`, leaves every other order untouched, and leaves no
order `in_progress`. -/
theorem pass_abandons_all
    (resolve : KitchenAction → List String → Except String (Option Ingredient))
    (svc : String → Order → Option VerificationResult)
    (fc : FunctionCall) (pendingText : Option String)
    (inventory : List Ingredient) (orders : List Order) (now : Nat)
    (hname : fc.name = some "pass") :
    handleApprovedFunctionCalls resolve svc fc pendingText inventory orders now =
      { response := { success := true, message := some "Order abandoned." },
        inventory := inventory, orders := handlePass orders,
        appendedTimeline := [{ id := "pass-" ++ toString now, timestamp := now,
                               text := some "🏳️ Gave up on the order" }],
        resolverCalls := [] } ∧
    (∀ o ∈ handlePass orders, o.status ≠ OrderStatus.in_progress) ∧
    (∀ o ∈ orders, o.status = OrderStatus.in_progress →
      { o with status := OrderStatus.failed, servedDish := some "Vanished" } ∈
        handlePass orders) ∧
    (∀ o ∈ orders, o.status ≠ OrderStatus.in_progress → o ∈ handlePass orders) := by
  refine ⟨?_, ?_, ?_, ?_⟩
  · simp [handleApprovedFunctionCalls, hname]
  · intro o ho
    rw [handlePass] at ho
    obtain ⟨x, _, rfl⟩ := List.mem_map.mp ho
    by_cases h : x.status = OrderStatus.in_progress <;> simp [h]
  · intro o ho hst
    have := List.mem_map_of_mem
      (fun order => if order.status == OrderStatus.in_progress then
        { order with status := OrderStatus.failed, servedDish := some "Vanished" }
        else order) ho
    simpa [handlePass, hst] using this
  · intro o ho hst
    have := List.mem_map_of_mem
      (fun order => if order.status == OrderStatus.in_progress then
        { order with status := OrderStatus.failed, servedDish := some "Vanished" }
        else order) ho
    simpa [handlePass, hst] using this

/-- Witness for C7: dispatching `pass` over a two-order ledger with both
orders in progress fails both with the sentinel served dish. -/
theorem pass_abandons_all_witness :
    handleApprovedFunctionCalls (fun _ _ => Except.ok none) (fun _ _ => none)
        { name := some "pass" } none []
        [⟨"o1", "Idly", "🥞", "easy", OrderStatus.in_progress, none⟩,
         ⟨"o2", "Poori", "🥞", "easy", OrderStatus.in_progress, none⟩] 5 =
      { response := { success := true, message := some "Order abandoned." },
        inventory := [],
        orders := [⟨"o1", "Idly", "🥞", "easy", OrderStatus.failed, some "Vanished"⟩,
                   ⟨"o2", "Poori", "🥞", "easy", OrderStatus.failed, some "Vanished"⟩],
        appendedTimeline := [{ id := "pass-5", timestamp := 5,
                               text := some "🏳️ Gave up on the order" }],
        resolverCalls := [] } := by
  have h := (pass_abandons_all (fun _ _ => Except.ok none) (fun _ _ => none)
    { name := some "pass" } none []
    [⟨"o1", "Idly", "🥞", "easy", OrderStatus.in_progress, none⟩,
     ⟨"o2", "Poori", "🥞", "easy", OrderStatus.in_progress, none⟩] 5 rfl).1
  rw [h]
  decide

/-- C4: when the in-progress orders split as `l₁ ++ o :: l₂` in ledger order
with every order in `l₁` rejected by the judge and `o` reported as matching
with confidence above 0.7, verification succeeds, exactly `o` transitions to
`completed` with `servedDish` set to the served dish name (iteration stops at
`o`), and every order with a different id is carried over unchanged — a
single served dish completes at most one order. -/
theorem verify_first_match_completes
    (svc : Order → Option VerificationResult) (servedDishName : String)
    (orders : List Order) (inventory : List Ingredient) (now : Nat)
    (l₁ l₂ : List Order) (o : Order)
    (hsplit : orders.filter (fun x => x.status == OrderStatus.in_progress) =
      l₁ ++ o :: l₂)
    (hskip : ∀ p ∈ l₁, acceptsVerification svc p = false)
    (hacc : acceptsVerification svc o = true) :
    verifyServedDish svc servedDishName orders inventory now =
      { success := true,
        orders := orders.map
          (completeOrder o.id (servedEmojiFor servedDishName inventory) servedDishName),
        appended := [{ id := "verify-" ++ toString now, timestamp := now,
                       text := some ("✅ Delicious! \"" ++ servedDishName ++
                         "\" is a perfect match for \"" ++ o.name ++ "\"."),
                       action := some "", ingredients := some [],
                       result := some none }] } ∧
    ∀ p ∈ orders, p.id ≠ o.id →
      p ∈ (verifyServedDish svc servedDishName orders inventory now).orders := by
  have hfind : (orders.filter
      (fun x => x.status == OrderStatus.in_progress)).find?
        (acceptsVerification svc) = some o := by
    rw [hsplit]
    exact find?_first_accepted _ l₁ l₂ o hskip hacc
  have hise : (orders.filter
      (fun x => x.status == OrderStatus.in_progress)).isEmpty = false := by
    rw [hsplit]
    simp
  have h1 : verifyServedDish svc servedDishName orders inventory now =
      { success := true,
        orders := orders.map
          (completeOrder o.id (servedEmojiFor servedDishName inventory) servedDishName),
        appended := [{ id := "verify-" ++ toString now, timestamp := now,
                       text := some ("✅ Delicious! \"" ++ servedDishName ++
                         "\" is a perfect match for \"" ++ o.name ++ "\"."),
                       action := some "", ingredients := some [],
                       result := some none }] } := by
    simp [verifyServedDish, hfind, hise]
  refine ⟨h1, ?_⟩
  rw [h1]
  intro p hp hpid
  have := List.mem_map_of_mem
    (completeOrder o.id (servedEmojiFor servedDishName inventory) servedDishName) hp
  simpa [completeOrder, hpid] using this

/-- Witness for C4: the spec scenario — "Filter Coffee" and "Masala Dosa"
both in progress, the judge matching the served dish to "Filter Coffee" with
confidence 0.9 — completes exactly "Filter Coffee". -/
theorem verify_first_match_completes_witness :
    verifyServedDish
        (fun o => if o.name == "Filter Coffee" then
            some ⟨true, 9/10, "authentic"⟩ else some ⟨false, 1/2, "different dish"⟩)
        "Filter Coffee"
        [⟨"order-1", "Filter Coffee", "☕", "easy", OrderStatus.in_progress, none⟩,
         ⟨"order-4", "Masala Dosa", "🥞", "difficult", OrderStatus.in_progress, none⟩]
        [] 9 =
      { success := true,
        orders := [⟨"order-1", "Filter Coffee", "✅", "easy",
                    OrderStatus.completed, some "Filter Coffee"⟩,
                   ⟨"order-4", "Masala Dosa", "🥞", "difficult",
                    OrderStatus.in_progress, none⟩],
        appended := [{ id := "verify-9", timestamp := 9,
                       text := some "✅ Delicious! \"Filter Coffee\" is a perfect match for \"Filter Coffee\".",
                       action := some "", ingredients := some [],
                       result := some none }] } := by
  have h := (verify_first_match_completes
    (fun o => if o.name == "Filter Coffee" then
        some ⟨true, 9/10, "authentic"⟩ else some ⟨false, 1/2, "different dish"⟩)
    "Filter Coffee"
    [⟨"order-1", "Filter Coffee", "☕", "easy", OrderStatus.in_progress, none⟩,
     ⟨"order-4", "Masala Dosa", "🥞", "difficult", OrderStatus.in_progress, none⟩]
    [] 9 []
    [⟨"order-4", "Masala Dosa", "🥞", "difficult", OrderStatus.in_progress, none⟩]
    ⟨"order-1", "Filter Coffee", "☕", "easy", OrderStatus.in_progress, none⟩
    (by decide) (by decide) (by norm_num [acceptsVerification])).1
  rw [h]
  decide

/-- C5: a judge call that throws for a given order (modelled `svc o = none`)
never accepts that order, and the scan of the in-progress list continues
past it exactly as if the order were absent; and when no in-progress order
is accepted after the whole set is exhausted, verification returns `false`,
appends only the failure narration, and leaves the ledger entirely
unchanged — no order transitions to `failed` from an unmatched
verification. -/
theorem verify_error_skip_and_no_match
    (svc : Order → Option VerificationResult) (servedDishName : String)
    (orders : List Order) (inventory : List Ingredient) (now : Nat) :
    (∀ (l₁ l₂ : List Order) (o : Order), svc o = none →
      (l₁ ++ o :: l₂).find? (acceptsVerification svc) =
        (l₁ ++ l₂).find? (acceptsVerification svc)) ∧
    ((∀ p ∈ orders.filter (fun x => x.status == OrderStatus.in_progress),
        acceptsVerification svc p = false) →
      orders.filter (fun x => x.status == OrderStatus.in_progress) ≠ [] →
      verifyServedDish svc servedDishName orders inventory now =
        { success := false, orders := orders,
          appended := [{ id := "verify-fail-" ++ toString now, timestamp := now,
                         text := some "❌ That\x27s not part of the current feast!",
                         action := some "", ingredients := some [],
                         result := some none }] }) := by
  constructor
  · intro l₁ l₂ o h
    have ho : ¬ acceptsVerification svc o = true := by
      simp [acceptsVerification, h]
    induction l₁ with
    | nil =>
      simpa using List.find?_cons_of_neg _ ho
    | cons a rest ih =>
      by_cases ha : acceptsVerification svc a = true
      · rw [List.cons_append, List.cons_append,
          List.find?_cons_of_pos _ ha, List.find?_cons_of_pos _ ha]
      · rw [List.cons_append, List.cons_append,
          List.find?_cons_of_neg _ ha, List.find?_cons_of_neg _ ha, ih]
  · intro hall hne
    have hfind : (orders.filter
        (fun x => x.status == OrderStatus.in_progress)).find?
          (acceptsVerification svc) = none :=
      List.find?_eq_none.mpr (fun x hx => by simp [hall x hx])
    have hise : (orders.filter
        (fun x => x.status == OrderStatus.in_progress)).isEmpty = false := by
      cases h : orders.filter (fun x => x.status == OrderStatus.in_progress) with
      | nil => exact absurd h hne
      | cons a l => simp
    simp [verifyServedDish, hfind, hise]

/-- Witness for C5: the judge throws on the first in-progress order and
rejects the second; verification returns false and both orders stay
`in_progress`. -/
theorem verify_error_skip_and_no_match_witness :
    verifyServedDish
        (fun o => if o.id == "o1" then none else some ⟨false, 0, "not a match"⟩)
        "Mystery Dish"
        [⟨"o1", "Idly", "🥞", "easy", OrderStatus.in_progress, none⟩,
         ⟨"o2", "Poori", "🥞", "easy", OrderStatus.in_progress, none⟩] [] 3 =
      { success := false,
        orders := [⟨"o1", "Idly", "🥞", "easy", OrderStatus.in_progress, none⟩,
                   ⟨"o2", "Poori", "🥞", "easy", OrderStatus.in_progress, none⟩],
        appended := [{ id := "verify-fail-3", timestamp := 3,
                       text := some "❌ That\x27s not part of the current feast!",
                       action := some "", ingredients := some [],
                       result := some none }] } :=
  (verify_error_skip_and_no_match
    (fun o => if o.id == "o1" then none else some ⟨false, 0, "not a match"⟩)
    "Mystery Dish"
    [⟨"o1", "Idly", "🥞", "easy", OrderStatus.in_progress, none⟩,
     ⟨"o2", "Poori", "🥞", "easy", OrderStatus.in_progress, none⟩] [] 3).2
    (by decide) (by decide)

/-- C3: a regular-action tool call (a known action that is neither serve nor
pass) whose requested ingredient list is non-empty but validates to nothing
against the current Inventory fails with the "Ingredients missing from
pantry." error response and produces zero Timeline entries, zero Inventory
changes, zero ledger changes, and no combination-resolver invocation. -/
theorem missing_pantry_rejected
    (resolve : KitchenAction → List String → Except String (Option Ingredient))
    (svc : String → Order → Option VerificationResult)
    (fc : FunctionCall) (pendingText : Option String)
    (inventory : List Ingredient) (orders : List Order) (now : Nat)
    (actionName : String) (action : KitchenAction)
    (hname : fc.name = some actionName)
    (hserve : actionName ≠ "serve_on_leaf") (hpass : actionName ≠ "pass")
    (hfind : COOKING_ACTIONS.find? (fun a => a.name == actionName) = some action)
    (hreq : fc.ingredients.getD [] ≠ [])
    (hval : validateIngredients (fc.ingredients.getD []) inventory = []) :
    handleApprovedFunctionCalls resolve svc fc pendingText inventory orders now =
      { response := { success := false,
                      error := some "Ingredients missing from pantry." },
        inventory := inventory, orders := orders,
        appendedTimeline := [], resolverCalls := [] } := by
  simp [handleApprovedFunctionCalls, hname, hserve, hpass, hfind, hval, hreq]

/-- Witness for C3: the spec scenario — dispatching `boil` with
`ingredients = ["nonexistent item"]` against the seed pantry is rejected
with no state change. -/
theorem missing_pantry_rejected_witness :
    handleApprovedFunctionCalls (fun _ _ => Except.ok none) (fun _ _ => none)
        { name := some "boil", ingredients := some ["nonexistent item"] } none
        STARTING_INGREDIENTS [] 4 =
      { response := { success := false,
                      error := some "Ingredients missing from pantry." },
        inventory := STARTING_INGREDIENTS, orders := [],
        appendedTimeline := [], resolverCalls := [] } :=
  missing_pantry_rejected (fun _ _ => Except.ok none) (fun _ _ => none)
    { name := some "boil", ingredients := some ["nonexistent item"] } none
    STARTING_INGREDIENTS [] 4 "boil" (createAction "boil" "🫧")
    rfl (by decide) (by decide) (by decide) (by decide) (by decide)

/-- C9: a regular-action tool call whose `ingredients` argument is absent or
the empty list is not rejected by the pantry validation: the dispatcher
appends the pending Timeline entry (created with the `result = null`
marker) for an empty validated-ingredient list, completes it, and invokes
the combination resolver once with the empty list. -/
theorem empty_ingredients_not_rejected
    (resolve : KitchenAction → List String → Except String (Option Ingredient))
    (svc : String → Order → Option VerificationResult)
    (fc : FunctionCall) (pendingText : Option String)
    (inventory : List Ingredient) (orders : List Order) (now : Nat)
    (actionName : String) (action : KitchenAction)
    (hname : fc.name = some actionName)
    (hserve : actionName ≠ "serve_on_leaf") (hpass : actionName ≠ "pass")
    (hfind : COOKING_ACTIONS.find? (fun a => a.name == actionName) = some action)
    (hing : fc.ingredients = none ∨ fc.ingredients = some []) :
    (handleApprovedFunctionCalls resolve svc fc pendingText inventory
        orders now).resolverCalls = [(actionName, [])] ∧
    (∃ res : Ingredient,
      (handleApprovedFunctionCalls resolve svc fc pendingText inventory
          orders now).appendedTimeline =
        [{ mkLoadingEntry ("cooking-" ++ toString now) now pendingText actionName []
             with result := some (some res) }]) ∧
    (mkLoadingEntry ("cooking-" ++ toString now) now pendingText actionName
        []).result = some none := by
  have hreq : fc.ingredients.getD [] = [] := by
    rcases hing with h | h <;> simp [h]
  have hv0 : validateIngredients ([] : List String) inventory = [] := rfl
  refine ⟨?_, ?_, rfl⟩
  · cases hres : resolve action [] with
    | ok r =>
      simp [handleApprovedFunctionCalls, hname, hserve, hpass, hfind, hreq, hv0, hres]
    | error e =>
      simp [handleApprovedFunctionCalls, hname, hserve, hpass, hfind, hreq, hv0, hres]
  · cases hres : resolve action [] with
    | ok r =>
      exact ⟨r.getD (fallbackIngredient action),
        by simp [handleApprovedFunctionCalls, hname, hserve, hpass, hfind, hreq, hv0, hres]⟩
    | error e =>
      exact ⟨errorSentinel,
        by simp [handleApprovedFunctionCalls, hname, hserve, hpass, hfind, hreq, hv0, hres]⟩

/-- Witness for C9: dispatching `boil` with no `ingredients` argument
invokes the resolver on the empty list and appends one completed action
entry. -/
theorem empty_ingredients_not_rejected_witness :
    (handleApprovedFunctionCalls (fun _ _ => Except.ok (some ⟨"Hot Water", "♨️"⟩))
        (fun _ _ => none) { name := some "boil" } none [] [] 8).resolverCalls =
      [("boil", [])] :=
  (empty_ingredients_not_rejected (fun _ _ => Except.ok (some ⟨"Hot Water", "♨️"⟩))
    (fun _ _ => none) { name := some "boil" } none [] [] 8 "boil"
    (createAction "boil" "🫧") rfl (by decide) (by decide) (by decide)
    (Or.inl rfl)).1

/-- C10: a `serve_on_leaf` tool call whose `dish` argument is missing or the
empty string is not rejected: the dispatcher substitutes the literal dish
name "dish", so the whole dispatch equals the dispatch of the same call with
`dish := some "dish"`; the serve narration entry is appended first with the
substituted name, and verification runs on the substituted name. -/
theorem serve_empty_dish_defaults
    (resolve : KitchenAction → List String → Except String (Option Ingredient))
    (svc : String → Order → Option VerificationResult)
    (fc : FunctionCall) (pendingText : Option String)
    (inventory : List Ingredient) (orders : List Order) (now : Nat)
    (hname : fc.name = some "serve_on_leaf")
    (hdish : fc.dish = none ∨ fc.dish = some "") :
    handleApprovedFunctionCalls resolve svc fc pendingText inventory orders now =
      handleApprovedFunctionCalls resolve svc { fc with dish := some "dish" }
        pendingText inventory orders now ∧
    (handleApprovedFunctionCalls resolve svc fc pendingText inventory
        orders now).appendedTimeline.head? =
      some { id := "serve-" ++ toString now, timestamp := now,
             text := some "🍽️ Serving on Banana Leaf: dish" } ∧
    (handleApprovedFunctionCalls resolve svc fc pendingText inventory
        orders now).orders =
      (verifyServedDish (svc "dish") "dish" orders inventory now).orders := by
  rcases hdish with h | h <;>
    simp [handleApprovedFunctionCalls, hname, h]

/-- Witness for C10: serving with no `dish` argument over an empty ledger
narrates and reports the substituted name "dish". -/
theorem serve_empty_dish_defaults_witness :
    (handleApprovedFunctionCalls (fun _ _ => Except.ok none) (fun _ _ => none)
        { name := some "serve_on_leaf" } none [] [] 2).appendedTimeline.head? =
      some { id := "serve-2", timestamp := 2,
             text := some "🍽️ Serving on Banana Leaf: dish" } :=
  (serve_empty_dish_defaults (fun _ _ => Except.ok none) (fun _ _ => none)
    { name := some "serve_on_leaf" } none [] [] 2 rfl (Or.inl rfl)).2.1

/-- C1 counterexample: a regular-action tool call that passes ingredient
validation and whose combination resolver fails (returns the null that
`executeCombination` produces on a service error or malformed JSON) is NOT
completed with a sentinel error result and NOT reported as a failure:
the dispatcher substitutes the fallback ingredient "boiled items", inserts
it into the Inventory, and reports success. -/
theorem resolution_failure_counterexample :
    handleApprovedFunctionCalls (fun _ _ => Except.ok none) (fun _ _ => none)
        { name := some "boil", ingredients := some ["water"] } none
        [⟨"water", "💧"⟩] [] 0 =
      { response := { success := true, result := some "boiled items",
                      emoji := some "🫧" },
        inventory := [⟨"boiled items", "🫧"⟩, ⟨"water", "💧"⟩],
        orders := [],
        appendedTimeline := [{ id := "cooking-0", timestamp := 0,
                               action := some "boil",
                               ingredients := some ["water"],
                               result := some (some ⟨"boiled items", "🫧"⟩) }],
        resolverCalls := [("boil", ["water"])] } := by
  decide

/-- C1 amended: on the tool-call path, a resolver failure (null result) is
replaced by the fallback ingredient named `displayName ++ "ed items"`: the
pending Timeline entry is completed with the fallback, the fallback is
inserted into Inventory (deduplicated), and success is reported. The
sentinel-error completion with untouched Inventory and a failure response
carrying the stringified error occurs exactly when an exception is thrown
inside the execution block (no exception propagates: the dispatcher is a
total function). On the manual `executeAction` path, a null resolver result
does complete the entry with the sentinel error result and leaves the
Inventory unchanged. -/
theorem resolution_failure_amended
    (resolve : KitchenAction → List String → Except String (Option Ingredient))
    (svc : String → Order → Option VerificationResult)
    (fc : FunctionCall) (pendingText : Option String)
    (inventory : List Ingredient) (orders : List Order) (now : Nat)
    (actionName : String) (action : KitchenAction)
    (hname : fc.name = some actionName)
    (hserve : actionName ≠ "serve_on_leaf") (hpass : actionName ≠ "pass")
    (hfind : COOKING_ACTIONS.find? (fun a => a.name == actionName) = some action)
    (hok : validateIngredients (fc.ingredients.getD []) inventory ≠ [] ∨
      fc.ingredients.getD [] = []) :
    (resolve action (validateIngredients (fc.ingredients.getD []) inventory) =
        Except.ok none →
      handleApprovedFunctionCalls resolve svc fc pendingText inventory orders now =
        { response := { success := true,
                        result := some (fallbackIngredient action).name,
                        emoji := some (fallbackIngredient action).emoji },
          inventory := insertIngredient (fallbackIngredient action) inventory,
          orders := orders,
          appendedTimeline :=
            [{ mkLoadingEntry ("cooking-" ++ toString now) now pendingText actionName
                 (validateIngredients (fc.ingredients.getD []) inventory)
               with result := some (some (fallbackIngredient action)) }],
          resolverCalls :=
            [(actionName, validateIngredients (fc.ingredients.getD []) inventory)] }) ∧
    (∀ e : String,
      resolve action (validateIngredients (fc.ingredients.getD []) inventory) =
          Except.error e →
      handleApprovedFunctionCalls resolve svc fc pendingText inventory orders now =
        { response := { success := false, error := some e },
          inventory := inventory,
          orders := orders,
          appendedTimeline :=
            [{ mkLoadingEntry ("cooking-" ++ toString now) now pendingText actionName
                 (validateIngredients (fc.ingredients.getD []) inventory)
               with result := some (some errorSentinel) }],
          resolverCalls :=
            [(actionName, validateIngredients (fc.ingredients.getD []) inventory)] }) ∧
    (∀ (mresolve : KitchenAction → List String → Option Ingredient)
        (selected : List String), selected ≠ [] →
      mresolve action selected = none →
      executeAction mresolve action selected inventory now =
        { inventory := inventory,
          appendedTimeline := [{ id := toString now, timestamp := now,
                                 action := some action.name,
                                 ingredients := some selected,
                                 result := some (some errorSentinel) }],
          served := none }) := by
  have hA : action.name = actionName := by
    simpa using List.find?_some hfind
  have hguard : ¬((validateIngredients (fc.ingredients.getD []) inventory).isEmpty &&
      !(fc.ingredients.getD []).isEmpty) = true := by
    rcases hok with h | h <;> simp [h]
  refine ⟨?_, ?_, ?_⟩
  · intro hres
    simp [handleApprovedFunctionCalls, hname, hserve, hpass, hfind, hguard, hres]
  · intro e hres
    simp [handleApprovedFunctionCalls, hname, hserve, hpass, hfind, hguard, hres]
  · intro mresolve selected hsel hres
    simp [executeAction, hA, hserve, hsel, hres]

/-- Witness for C1 amended: a thrown resolver exception on `boil water` is
caught, the entry is completed with the sentinel, the inventory is
untouched, and the stringified error is reported. -/
theorem resolution_failure_amended_witness :
    handleApprovedFunctionCalls (fun _ _ => Except.error "Error: quota exceeded")
        (fun _ _ => none) { name := some "boil", ingredients := some ["water"] }
        none [⟨"water", "💧"⟩] [] 0 =
      { response := { success := false, error := some "Error: quota exceeded" },
        inventory := [⟨"water", "💧"⟩],
        orders := [],
        appendedTimeline := [{ id := "cooking-0", timestamp := 0,
                               action := some "boil",
                               ingredients := some ["water"],
                               result := some (some ⟨"error", "❌"⟩) }],
        resolverCalls := [("boil", ["water"])] } := by
  have h := (resolution_failure_amended
    (fun _ _ => Except.error "Error: quota exceeded") (fun _ _ => none)
    { name := some "boil", ingredients := some ["water"] } none
    [⟨"water", "💧"⟩] [] 0 "boil" (createAction "boil" "🫧") rfl
    (by decide) (by decide) (by decide) (Or.inl (by decide))).2.1
    "Error: quota exceeded" rfl
  rw [h]
  decide

end FoodOrderApp
